import Mathlib

/-!
Verification of the metronome audio engine (`metronome.py`).

The source is a tkinter/sounddevice metronome.  This file gives a shallow
embedding of its core: the drift-compensated sample generator
(`sample_generator`), the bar/beat waveform builder
(`generate_bar_and_beat_array`), the tempo-transition phase mapper
(`map_current_position_to_new_tempo_index` / `set_tempo`), the control
commands (`start` / `stop` / `set_tempo` / `adjust_tempo`) and the audio
callback.

Modelling conventions:
* Python floats are modelled as exact rationals (ℚ); `x % 1` on a float is
  `x - ⌊x⌋` (Python's mod is floor-based), and `int(x)` truncates toward 0.
* `np.roll(arr, -k)` is a left rotation, modelled by `List.rotate arr k`;
  the sliding window `arr[0:BLOCKSIZE]` is `List.take BLOCKSIZE`.
* The generator coroutine is modelled as an explicit state machine: its
  state between yields is the cumulative rotation applied to the bar/beat
  arrays together with `self.accumulated_drift_error`.
* Fallible operations (`np.zeros` of a negative size raises `ValueError`)
  return `Option`; an exception propagating out of a method makes the whole
  call return `none`.
* Attributes of the `Metronome` instance that are always written before
  being read within the same method call (`bar_fraction_at_tempo_change`,
  `tempo_end_time`, `time_at_tempo`, `bars_at_tempo`) are modelled as
  locals of that method.  `self.tempo_start_time` and the stream clock
  `self.stream.time` survive across calls and are modelled explicitly (the
  current clock value is passed in as `now`).
-/

/-- Samples per frame of audio (`self.BLOCKSIZE = 256`). -/
def BLOCKSIZE : ℕ := 256

/-- Frames of audio to pre-fill the queue with (`self.BUFFERSIZE = 40`). -/
def BUFFERSIZE : ℕ := 40

/-- Queue capacity (`self.MAXQUEUESIZE = 50`). -/
def MAXQUEUESIZE : ℕ := 50

/-- Sample rate (`self.fs = 16000`). -/
def FS : ℕ := 16000

/-- Beats per bar (`self.beats_per_bar = 4`; the spinbox that would change
it is disabled in the source). -/
def BEATS_PER_BAR : ℕ := 4

/-- Queue put timeout, `self.TIMEOUT = self.BLOCKSIZE * self.BUFFERSIZE / self.fs`. -/
def TIMEOUT : ℚ := (BLOCKSIZE * BUFFERSIZE : ℚ) / FS

/-- Python `int()` applied to a (rational-valued) float: truncation toward zero. -/
def pyInt (q : ℚ) : ℤ := q.num.tdiv q.den

/-- Executable floor of a rational (`q.num / q.den` with Euclidean division
is exactly `Int.floor`). -/
def ratFloor (q : ℚ) : ℤ := q.num / q.den

/-- Python `x % 1.0` on floats: Python's mod is floor-based, so this is
`x - floor x` for every sign of `x`. -/
def pyMod1 (x : ℚ) : ℚ := x - ratFloor x

/-- Python `divmod(x, 1.0)`: floor quotient (as a float) and remainder. -/
def pyDivmod1 (x : ℚ) : ℚ × ℚ := ((ratFloor x : ℚ), x - ratFloor x)

/-- Faithful to `Metronome.compute_drift_error_per_frame`:
`samples_per_beat, decimal_component = divmod(self.fs * 60.0 / self.tempo, 1)`;
`error_per_sample = decimal_component / samples_per_beat`;
returns `self.BLOCKSIZE * error_per_sample`. -/
def compute_drift_error_per_frame (sample_rate : ℕ) (tempo : ℤ) : ℚ :=
  let p := pyDivmod1 ((sample_rate * 60 : ℚ) / (tempo : ℚ))
  BLOCKSIZE * (p.2 / p.1)

/-- Per-frame drift at sample rate `self.fs` as a function of a natural
tempo (helper for ranging over the GUI tempo range 40..300). -/
def drift_at_nat_tempo (t : ℕ) : ℚ := compute_drift_error_per_frame FS (t : ℤ)

/-- Faithful to `Metronome.get_seconds_per_bar`:
`self.seconds_per_bar = self.beats_per_bar / (self.tempo / 60.0)`. -/
def get_seconds_per_bar (beats_per_bar : ℕ) (tempo : ℤ) : ℚ :=
  (beats_per_bar : ℚ) / ((tempo : ℚ) / 60)

/-- State of the `sample_generator` coroutine at the top of its `while` loop
(just before the correction decision): `barOffset` is the cumulative left
rotation applied to `self.bar_array` / `self.beat_array` so far, and `acc`
is `self.accumulated_drift_error` (the per-frame drift for the frame just
yielded has already been added). -/
structure GenState where
  barOffset : ℕ
  acc : ℚ

/-- The literal `int_accumulated_drift_error = 1` in `sample_generator`. -/
def int_accumulated_drift_error : ℕ := 1

/-- Roll value chosen by the correction decision in `sample_generator`:
`BLOCKSIZE - 1` when `self.accumulated_drift_error >= 0.5`, else `BLOCKSIZE`. -/
def roll_value (acc : ℚ) : ℕ :=
  if (1:ℚ)/2 ≤ acc then BLOCKSIZE - int_accumulated_drift_error else BLOCKSIZE

/-- Value of `self.accumulated_drift_error` immediately after the correction
decision: `1.0` is subtracted when the decision fires, else unchanged. -/
def decide_acc (acc : ℚ) : ℚ :=
  if (1:ℚ)/2 ≤ acc then acc - (int_accumulated_drift_error : ℚ) else acc

/-- One iteration of the `while True` loop of `sample_generator`: decide the
correction, `apply_shift(-roll_value)` (accumulate the rotation), yield, and
add the per-frame drift error for the yielded frame. -/
def genLoopBody (d : ℚ) (s : GenState) : GenState :=
  ⟨s.barOffset + roll_value s.acc, decide_acc s.acc + d⟩

/-- `genState d n` is the generator state entering loop iteration `n + 1`.
`genState d 0 = ⟨0, d⟩`: before the loop, the generator resets the
accumulator, yields `bar_array[0:BLOCKSIZE]` unrotated, and adds one frame's
drift.  The `(n+1)`-th `next()` call yields the window at rotation
`(genState d n).barOffset`. -/
def genState (d : ℚ) : ℕ → GenState
  | 0 => ⟨0, d⟩
  | n + 1 => genLoopBody d (genState d n)

/-- Frame yielded by the `(k+1)`-th `next()` call of `sample_generator`
run on arrays `bar` / `beat` with per-frame drift `d`:
`np.roll` by the cumulative offset, then the `[0:BLOCKSIZE]` window. -/
def frame_at (bar : List ℚ) (beat : List ℕ) (d : ℚ) (k : ℕ) : List ℚ × List ℕ :=
  ((bar.rotate (genState d k).barOffset).take BLOCKSIZE,
   (beat.rotate (genState d k).barOffset).take BLOCKSIZE)

/-- Number of samples the sliding window advances on the n-th `next()` call
(1-indexed; meaningful for n ≥ 2, where call n runs loop iteration n-1;
the `n - 2` is truncated ℕ subtraction). -/
def advance_of_call (d : ℚ) (n : ℕ) : ℕ := roll_value (genState d (n - 2)).acc

/-- Value of `self.accumulated_drift_error` after `n` calls to `next()` on a
fresh generator (the generator body sets it to 0 on the first call; the
`+= frame_drift_error` at the bottom of the loop runs at the start of the
following call). -/
def acc_after_calls (d : ℚ) : ℕ → ℚ
  | 0 => 0
  | 1 => 0
  | n + 2 => decide_acc (genState d n).acc

/-- Result of `Metronome.generate_bar_and_beat_array`: the integer
`self.samples_per_beat` and `self.samples_per_bar`, plus `self.bar_array`
and `self.beat_array`. -/
structure BarBuild where
  samples_per_beat : ℤ
  samples_per_bar : ℤ
  bar_array : List ℚ
  beat_array : List ℕ

/-- Faithful to `Metronome.generate_bar_and_beat_array`:
`samples_per_beat = int(fs * 60.0 / tempo)`;
`samples_per_bar = samples_per_beat * beats_per_bar`;
`zeros = np.zeros(samples_per_beat - len(hi))` — raises `ValueError` (here
`none`) exactly when `samples_per_beat - len(hi)` is negative;
`accent_beat = concat(hi, zeros)`, `non_accent_beat = concat(lo, zeros)`;
`bar_array = concat(accent_beat, tile(non_accent_beat, beats_per_bar - 1))`;
`beat_array[i] = 1 + i // samples_per_beat` for `i in range(samples_per_bar)`. -/
def generate_bar_and_beat_array (sample_rate : ℕ) (tempo : ℤ) (beats_per_bar : ℕ)
    (hi lo : List ℚ) : Option BarBuild :=
  let samples_per_beat : ℤ := pyInt ((sample_rate * 60 : ℚ) / (tempo : ℚ))
  if samples_per_beat < (hi.length : ℤ) then none
  else
    let spb : ℕ := samples_per_beat.toNat
    let zeros : List ℚ := List.replicate (spb - hi.length) 0
    let accent_beat : List ℚ := hi ++ zeros
    let non_accent_beat : List ℚ := lo ++ zeros
    let bar_array : List ℚ :=
      accent_beat ++ (List.replicate (beats_per_bar - 1) non_accent_beat).flatten
    let beat_array : List ℕ := (List.range (spb * beats_per_bar)).map (fun i => 1 + i / spb)
    some ⟨samples_per_beat, samples_per_beat * beats_per_bar, bar_array, beat_array⟩

/-- A `sample_generator` instance as created on a freshly built bar:
arrays, per-frame drift at the current tempo, and the number of `next()`
calls completed so far. -/
structure Sequencer where
  bar : List ℚ
  beat : List ℕ
  d : ℚ
  yielded : ℕ

/-- Creating `self.gen = self.sample_generator()` right after a build: a
sequencer only ever comes from a successful build. -/
def sequencer_of_build (sample_rate : ℕ) (tempo : ℤ) (b : BarBuild) : Sequencer :=
  ⟨b.bar_array, b.beat_array, compute_drift_error_per_frame sample_rate tempo, 0⟩

/-- One `next()` call on the generator: yields the current frame and
advances the coroutine. -/
def seq_next (s : Sequencer) : ((List ℚ) × (List ℕ)) × Sequencer :=
  (frame_at s.bar s.beat s.d s.yielded, ⟨s.bar, s.beat, s.d, s.yielded + 1⟩)

/-- Faithful to `Metronome.map_current_position_to_new_tempo_index`:
`new_bar_fraction = (tempo_start_bar_fraction + bar_fraction_at_tempo_change) % 1`;
`bar_index_at_new_tempo = int(new_bar_fraction * samples_per_bar)`;
also returns the updated `self.tempo_start_bar_fraction`. -/
def map_current_position_to_new_tempo_index
    (tempo_start_bar_fraction bar_fraction_at_tempo_change : ℚ)
    (samples_per_bar : ℤ) : ℤ × ℚ :=
  let new_bar_fraction := pyMod1 (tempo_start_bar_fraction + bar_fraction_at_tempo_change)
  (pyInt (new_bar_fraction * (samples_per_bar : ℚ)), new_bar_fraction)

/-- Persistent state of the `Metronome` instance (the attributes that are
read by a later method call; GUI widgets excluded). -/
structure MetState where
  running : Bool
  tempo : ℤ
  tempo_start_bar_fraction : ℚ
  accumulated_drift_error : ℚ
  seconds_per_bar : ℚ
  samples_per_beat : ℤ
  samples_per_bar : ℤ
  bar_array : List ℚ
  beat_array : List ℕ
  gen_yielded : ℕ
  q : List ((List ℚ) × (List ℕ))
  tempo_start_time : ℚ

/-- Faithful to `Metronome.create_and_fill_new_queue`: a fresh queue filled
with `BUFFERSIZE` frames pulled from a brand-new temporary generator, which
then replaces `self.gen`.  Returns (queue, generator progress, final
`self.accumulated_drift_error`).  The `if not len(data): break` in the
source never fires: `data` is always a 2-tuple. -/
def create_and_fill_new_queue (bar : List ℚ) (beat : List ℕ) (d : ℚ) :
    (List ((List ℚ) × (List ℕ))) × ℕ × ℚ :=
  ((List.range BUFFERSIZE).map (frame_at bar beat d), BUFFERSIZE, acc_after_calls d BUFFERSIZE)

/-- Faithful to `Metronome.set_tempo` (GUI updates omitted): when running,
compute `bar_fraction_at_tempo_change` from the stream time spent at the old
tempo and the old `seconds_per_bar`; set `self.tempo`; reset the drift
counter; rebuild the arrays (propagating failure); when running, map the
current position into the new bar and `apply_shift(-new_bar_index)`;
rebuild and pre-fill the queue; record `tempo_start_time = stream.time` and
update `seconds_per_bar` from the new tempo. -/
def set_tempo_M (hi lo : List ℚ) (s : MetState) (tempo : ℤ) (now : ℚ) : Option MetState :=
  let bar_fraction_at_tempo_change : ℚ :=
    if s.running then pyMod1 ((now - s.tempo_start_time) / s.seconds_per_bar) else 0
  match generate_bar_and_beat_array FS tempo BEATS_PER_BAR hi lo with
  | none => none
  | some b =>
    let mapped : ℤ × ℚ :=
      if s.running then
        map_current_position_to_new_tempo_index s.tempo_start_bar_fraction
          bar_fraction_at_tempo_change b.samples_per_bar
      else (0, s.tempo_start_bar_fraction)
    let idx : ℕ := mapped.1.toNat
    let bar1 := if s.running then b.bar_array.rotate idx else b.bar_array
    let beat1 := if s.running then b.beat_array.rotate idx else b.beat_array
    let filled := create_and_fill_new_queue bar1 beat1 (compute_drift_error_per_frame FS tempo)
    some { running := s.running, tempo := tempo,
           tempo_start_bar_fraction := mapped.2,
           accumulated_drift_error := filled.2.2,
           seconds_per_bar := get_seconds_per_bar BEATS_PER_BAR tempo,
           samples_per_beat := b.samples_per_beat,
           samples_per_bar := b.samples_per_bar,
           bar_array := bar1, beat_array := beat1,
           gen_yielded := filled.2.1, q := filled.1,
           tempo_start_time := now }

/-- Faithful to `Metronome.adjust_tempo`: clamp the adjusted tempo to the
slider range (`from_=40`, `to=300`) before calling `set_tempo`. -/
def adjust_tempo_M (hi lo : List ℚ) (s : MetState) (tempo_adjustment : ℤ) (now : ℚ) :
    Option MetState :=
  if s.tempo + tempo_adjustment < 40 then set_tempo_M hi lo s 40 now
  else if s.tempo + tempo_adjustment > 300 then set_tempo_M hi lo s 300 now
  else set_tempo_M hi lo s (s.tempo + tempo_adjustment) now

/-- Faithful to `Metronome.start`: no-op when already running; otherwise
reset the bar fraction, rebuild the arrays at the current tempo, reset the
drift counter, create a fresh generator, rebuild and pre-fill the queue,
start the stream and record the stream time.  (`seconds_per_bar` is not
touched by `start`.) -/
def start_M (hi lo : List ℚ) (s : MetState) (now : ℚ) : Option MetState :=
  if s.running then some s
  else
    match generate_bar_and_beat_array FS s.tempo BEATS_PER_BAR hi lo with
    | none => none
    | some b =>
      let filled := create_and_fill_new_queue b.bar_array b.beat_array
        (compute_drift_error_per_frame FS s.tempo)
      some { running := true, tempo := s.tempo,
             tempo_start_bar_fraction := 0,
             accumulated_drift_error := filled.2.2,
             seconds_per_bar := s.seconds_per_bar,
             samples_per_beat := b.samples_per_beat,
             samples_per_bar := b.samples_per_bar,
             bar_array := b.bar_array, beat_array := b.beat_array,
             gen_yielded := filled.2.1, q := filled.1,
             tempo_start_time := now }

/-- Faithful to `Metronome.stop`: no-op when not running; otherwise just
clears the running flag and aborts the stream (queue left untouched). -/
def stop_M (s : MetState) : MetState :=
  if s.running then { s with running := false } else s

/-- The sounddevice `CallbackFlags` status bits passed to the callback. -/
structure SdStatus where
  input_underflow : Bool
  input_overflow : Bool
  output_underflow : Bool
  output_overflow : Bool
  priming_output : Bool

/-- Truthiness of a `CallbackFlags` object: any bit set. -/
def SdStatus.any_flag (st : SdStatus) : Bool :=
  st.input_underflow || st.input_overflow || st.output_underflow ||
    st.output_overflow || st.priming_output

/-- How the callback returns to the audio subsystem: normally, via
`sd.CallbackStop`, via `sd.CallbackAbort`, or by an uncaught
`AssertionError` (which also aborts the stream). -/
inductive CbSignal where
  | ok
  | callbackStop
  | callbackAbort
  | assertFailed
deriving DecidableEq

/-- Both `CallbackAbort` and an uncaught assertion abort the stream epoch. -/
def CbSignal.aborts_epoch : CbSignal → Bool
  | .callbackAbort => true
  | .assertFailed => true
  | _ => false

/-- State visible to the callback: the queue (`self.q`) and `self.gen`. -/
structure CbState where
  q : List ((List ℚ) × (List ℕ))
  gen : Sequencer

/-- Result of one callback invocation: the signal, the state afterwards,
and what was written into `outdata` (`none` = the write was skipped). -/
structure CbOutcome where
  signal : CbSignal
  state : CbState
  outdata : Option (List ℚ)

/-- Faithful to `Metronome.callback`.  `assert frames == BLOCKSIZE`; abort
on `status.output_underflow`; `assert not status`; pop a frame
(`get_nowait`), aborting when the queue is empty; a short frame is written
zero-padded and stops the stream; otherwise `next(self.gen)` then
`self.q.put(data, timeout=TIMEOUT)` then `outdata[:] = bar_data`.  Whether
the `put` times out depends on concurrent queue activity outside this
callback, so it is passed in as the oracle `put_times_out`; the source wraps
the refill in `try/except Exception` and only prints the exception, so on a
timeout the callback returns normally with the output write skipped and the
generated frame dropped. -/
def callback (frames : ℕ) (status : SdStatus) (put_times_out : Bool) (s : CbState) :
    CbOutcome :=
  if frames ≠ BLOCKSIZE then ⟨.assertFailed, s, none⟩
  else if status.output_underflow then ⟨.callbackAbort, s, none⟩
  else if status.any_flag then ⟨.assertFailed, s, none⟩
  else
    match s.q with
    | [] => ⟨.callbackAbort, s, none⟩
    | frame :: rest =>
      if frame.1.length < BLOCKSIZE then
        ⟨.callbackStop, ⟨rest, s.gen⟩,
         some (frame.1 ++ List.replicate (BLOCKSIZE - frame.1.length) 0)⟩
      else
        let nx := seq_next s.gen
        if put_times_out then ⟨.ok, ⟨rest, nx.2⟩, none⟩
        else ⟨.ok, ⟨rest ++ [nx.1], nx.2⟩, some frame.1⟩

/-- Following the specification text for the phase mapper:
`combined_fraction = (tempo_start_bar_fraction + instantaneous_fraction) mod 1`
with `instantaneous_fraction = (elapsed / seconds_per_bar(old)) mod 1`. -/
def spec_combined_fraction (tempo_start_bar_fraction elapsed seconds_per_bar_old : ℚ) : ℚ :=
  Int.fract (tempo_start_bar_fraction + Int.fract (elapsed / seconds_per_bar_old))

/-- Following the specification text for the phase mapper:
`new_start_index = floor(combined_fraction * samples_per_bar(new_tempo))`. -/
def spec_new_start_index (tempo_start_bar_fraction elapsed seconds_per_bar_old : ℚ)
    (samples_per_bar_new : ℤ) : ℤ :=
  ⌊spec_combined_fraction tempo_start_bar_fraction elapsed seconds_per_bar_old
      * (samples_per_bar_new : ℚ)⌋

/-- A concrete stopped `Metronome` state at the initial tempo 170 (used to
instantiate theorems at a specific input). -/
def sample_state : MetState :=
  { running := false, tempo := 170, tempo_start_bar_fraction := 0,
    accumulated_drift_error := 0,
    seconds_per_bar := get_seconds_per_bar BEATS_PER_BAR 170,
    samples_per_beat := 5647, samples_per_bar := 22588,
    bar_array := [], beat_array := [], gen_yielded := 0, q := [],
    tempo_start_time := 0 }

/-- The same concrete state, but running. -/
def sample_state_running : MetState := { sample_state with running := true }

/-
Theorems and supporting lemmas.
-/

lemma ratFloor_eq_floor (q : ℚ) : ratFloor q = ⌊q⌋ := (Rat.floor_def).symm

lemma pyMod1_eq_fract (x : ℚ) : pyMod1 x = Int.fract x := by
  rw [pyMod1, ratFloor_eq_floor, Int.fract]

lemma pyInt_eq_floor (q : ℚ) (h : 0 ≤ q) : pyInt q = ⌊q⌋ := by
  have h1 : 0 ≤ q.num := Rat.num_nonneg.mpr h
  have h2 : (0:ℤ) ≤ (q.den : ℤ) := Int.ofNat_nonneg q.den
  rw [pyInt, Int.tdiv_eq_ediv h1 h2, Rat.floor_def]

lemma pyInt_nonneg (q : ℚ) (h : 0 ≤ q) : 0 ≤ pyInt q := by
  rw [pyInt_eq_floor q h]
  exact Int.floor_nonneg.mpr h

lemma decide_acc_of_ge (a : ℚ) (h : (1:ℚ)/2 ≤ a) : decide_acc a = a - 1 := by
  rw [decide_acc, if_pos h, int_accumulated_drift_error, Nat.cast_one]

lemma decide_acc_of_lt (a : ℚ) (h : ¬ (1:ℚ)/2 ≤ a) : decide_acc a = a := by
  rw [decide_acc, if_neg h]

/-- Parity obstruction: when the per-frame drift has an odd denominator, the
accumulator expression `n*d - m` can never be exactly 1/2. -/
lemma no_half_hit (d : ℚ) (hden : d.den % 2 = 1) (n m : ℕ) : (n : ℚ) * d - m ≠ 1/2 := by
  intro h
  have hden0 : ((d.den : ℚ)) ≠ 0 := by
    exact_mod_cast d.den_nz
  have key : (d.num : ℚ) = d * (d.den : ℚ) := (div_eq_iff hden0).mp (Rat.num_div_den d)
  have h2 : (2 * (n : ℚ)) * d = 2 * (m : ℚ) + 1 := by linarith
  have h3 : (2 * (n : ℚ)) * (d.num : ℚ) = (2 * (m : ℚ) + 1) * (d.den : ℚ) := by
    rw [key, ← mul_assoc, h2]
  have h4 : (2 * (n : ℤ)) * d.num = (2 * (m : ℤ) + 1) * (d.den : ℤ) := by exact_mod_cast h3
  have he : Even ((2 * (n : ℤ)) * d.num) := ⟨(n : ℤ) * d.num, by ring⟩
  have ho : Odd ((2 * (m : ℤ) + 1) * (d.den : ℤ)) := by
    refine Odd.mul ⟨(m : ℤ), by ring⟩ ?_
    rw [Int.odd_coe_nat]
    exact Nat.odd_iff.mpr hden
  rw [h4] at he
  exact (Int.not_odd_iff_even.mpr he) ho

/-- The generator accumulator at the top of the loop is `(n+1)*d` minus the
number of corrections so far, and stays in `(-1/2, 3/2)`. -/
lemma genState_acc_closed (d : ℚ) (hd0 : 0 ≤ d) (hd1 : d < 1) (hden : d.den % 2 = 1) :
    ∀ n : ℕ, (∃ m : ℕ, (genState d n).acc = ((n : ℚ) + 1) * d - m) ∧
      -(1:ℚ)/2 < (genState d n).acc ∧ (genState d n).acc < 3/2 := by
  intro n
  induction n with
  | zero =>
    refine ⟨⟨0, ?_⟩, ?_, ?_⟩
    · show d = ((0:ℕ) + 1 : ℚ) * d - ((0:ℕ) : ℚ)
      push_cast; ring
    · show -(1:ℚ)/2 < d
      linarith
    · show d < 3/2
      linarith
  | succ k ih =>
    obtain ⟨⟨m, hm⟩, hlo, hhi⟩ := ih
    have hstep : (genState d (k+1)).acc = decide_acc (genState d k).acc + d := rfl
    by_cases hc : (1:ℚ)/2 ≤ (genState d k).acc
    · have hne : (genState d k).acc ≠ 1/2 := by
        rw [hm]
        have hk : ((k : ℚ) + 1) = ((k + 1 : ℕ) : ℚ) := by push_cast; ring
        rw [hk]
        exact no_half_hit d hden (k+1) m
      have hgt : 1/2 < (genState d k).acc := lt_of_le_of_ne hc (Ne.symm hne)
      have hdec := decide_acc_of_ge _ hc
      refine ⟨⟨m + 1, ?_⟩, ?_, ?_⟩
      · rw [hstep, hdec, hm]; push_cast; ring
      · rw [hstep, hdec]; linarith
      · rw [hstep, hdec]; linarith
    · have hdec := decide_acc_of_lt _ hc
      have hlt := lt_of_not_le hc
      refine ⟨⟨m, ?_⟩, ?_, ?_⟩
      · rw [hstep, hdec, hm]; push_cast; ring
      · rw [hstep, hdec]; linarith
      · rw [hstep, hdec]; linarith

/-- Immediately after each correction decision the accumulator lies in the
open interval `(-1/2, 1/2)`. -/
lemma decide_acc_bounds (d : ℚ) (hd0 : 0 ≤ d) (hd1 : d < 1) (hden : d.den % 2 = 1) (n : ℕ) :
    -(1:ℚ)/2 < decide_acc (genState d n).acc ∧ decide_acc (genState d n).acc < 1/2 := by
  obtain ⟨⟨m, hm⟩, hlo, hhi⟩ := genState_acc_closed d hd0 hd1 hden n
  by_cases hc : (1:ℚ)/2 ≤ (genState d n).acc
  · have hne : (genState d n).acc ≠ 1/2 := by
      rw [hm]
      have hk : ((n : ℚ) + 1) = ((n + 1 : ℕ) : ℚ) := by push_cast; ring
      rw [hk]
      exact no_half_hit d hden (n+1) m
    have hgt : 1/2 < (genState d n).acc := lt_of_le_of_ne hc (Ne.symm hne)
    rw [decide_acc_of_ge _ hc]
    constructor <;> linarith
  · rw [decide_acc_of_lt _ hc]
    exact ⟨hlo, lt_of_not_le hc⟩

set_option maxRecDepth 10000 in
/-- For every tempo the GUI can produce (40..300 bpm, sample rate 16000),
the per-frame drift is in `[0, 1)` and its denominator is odd. -/
lemma drift_range_facts : ∀ t < 301, 40 ≤ t →
    (0 ≤ drift_at_nat_tempo t ∧ drift_at_nat_tempo t < 1 ∧
     (drift_at_nat_tempo t).den % 2 = 1) :=
  of_decide_eq_true (by with_unfolding_all rfl)

/-- C1: for every sequencer instance (any GUI-reachable tempo 40..300 at
sample rate 16000) and any number of `next()` calls, the accumulated drift
error lies in `(-0.5, 0.5]` immediately after each correction decision; the
per-frame drift increment is indeed less than 1 for all these tempos. -/
theorem drift_accumulator_bound_after_decision (T : ℤ) (h1 : 40 ≤ T) (h2 : T ≤ 300)
    (hlt : compute_drift_error_per_frame FS T < 1) (n : ℕ) :
    -(1:ℚ)/2 < decide_acc (genState (compute_drift_error_per_frame FS T) n).acc ∧
    decide_acc (genState (compute_drift_error_per_frame FS T) n).acc ≤ 1/2 := by
  have hT0 : 0 ≤ T := by linarith
  have hcast : ((T.toNat : ℤ)) = T := Int.toNat_of_nonneg hT0
  have hfacts := drift_range_facts T.toNat (by omega) (by omega)
  rw [drift_at_nat_tempo, hcast] at hfacts
  obtain ⟨hd0, hd1, hden⟩ := hfacts
  have hb := decide_acc_bounds (compute_drift_error_per_frame FS T) hd0 hd1 hden n
  exact ⟨hb.1, le_of_lt hb.2⟩

/-- Witness for C1 at tempo 145, after 5 loop iterations. -/
theorem drift_accumulator_bound_after_decision_witness :
    (40 ≤ (145:ℤ)) ∧ ((145:ℤ) ≤ 300) ∧ compute_drift_error_per_frame FS 145 < 1 ∧
    (-(1:ℚ)/2 < decide_acc (genState (compute_drift_error_per_frame FS 145) 5).acc ∧
     decide_acc (genState (compute_drift_error_per_frame FS 145) 5).acc ≤ 1/2) := by
  refine ⟨by norm_num, by norm_num, of_decide_eq_true (by with_unfolding_all rfl), ?_⟩
  exact drift_accumulator_bound_after_decision 145 (by norm_num) (by norm_num)
    (of_decide_eq_true (by with_unfolding_all rfl)) 5

/-- C2: on every `next()` call after the first (one loop iteration): if the
accumulator left over from the previous frame is at least 0.5 the window
advances by `BLOCKSIZE - 1` and exactly 1.0 is subtracted, otherwise it
advances by `BLOCKSIZE`; the per-frame drift `d` is added only after this
decision (the decision tests `(genState d n).acc`, not the incremented
value); and the per-frame drift equals
`BLOCKSIZE * fractional_part / floor(true_samples_per_beat)`. -/
theorem sequencer_step_rule (d : ℚ) (sample_rate : ℕ) (tempo : ℤ) (n : ℕ) :
    ((genState d (n+1)).barOffset
        = (genState d n).barOffset
          + (if (1:ℚ)/2 ≤ (genState d n).acc then BLOCKSIZE - 1 else BLOCKSIZE)) ∧
    ((genState d (n+1)).acc
        = (if (1:ℚ)/2 ≤ (genState d n).acc then (genState d n).acc - 1
           else (genState d n).acc) + d) ∧
    compute_drift_error_per_frame sample_rate tempo
        = BLOCKSIZE * Int.fract ((sample_rate * 60 : ℚ) / (tempo : ℚ))
          / (⌊(sample_rate * 60 : ℚ) / (tempo : ℚ)⌋ : ℚ) := by
  refine ⟨?_, ?_, ?_⟩
  · show (genLoopBody d (genState d n)).barOffset = _
    rw [genLoopBody, roll_value, int_accumulated_drift_error]
  · show (genLoopBody d (genState d n)).acc = _
    rw [genLoopBody]
    by_cases hc : (1:ℚ)/2 ≤ (genState d n).acc
    · rw [decide_acc_of_ge _ hc, if_pos hc]
    · rw [decide_acc_of_lt _ hc, if_neg hc]
  · rw [compute_drift_error_per_frame, pyDivmod1, ratFloor_eq_floor, Int.fract]
    ring

/-- C3 counterexample: at tempo 145 (fs 16000, BLOCKSIZE 256) no correction
occurs on the 19th call to `next()` — every one of the first 19 calls
advances the window by the full 256 samples. -/
theorem no_correction_on_19th_call :
    (∀ n < 20, advance_of_call (compute_drift_error_per_frame FS 145) n = 256) ∧
    (256 : ℕ) ≠ 255 :=
  of_decide_eq_true (by with_unfolding_all rfl)

set_option maxRecDepth 10000 in
set_option maxHeartbeats 4000000 in
/-- C3 amended: at tempo 145 the first correction (advance of 255 instead of
256) occurs on the 20th `next()` call — the accumulator first reaches 0.5
after the 19th frame's drift increment — and corrections recur roughly every
37–38 frames (1 / 0.02667 ≈ 37.5), the next two falling on calls 58 and 95. -/
theorem corrections_at_calls_20_58_95 :
    (∀ n < 20, advance_of_call (compute_drift_error_per_frame FS 145) n = 256) ∧
    advance_of_call (compute_drift_error_per_frame FS 145) 20 = 255 ∧
    (∀ n < 58, 20 < n → advance_of_call (compute_drift_error_per_frame FS 145) n = 256) ∧
    advance_of_call (compute_drift_error_per_frame FS 145) 58 = 255 ∧
    (∀ n < 95, 58 < n → advance_of_call (compute_drift_error_per_frame FS 145) n = 256) ∧
    advance_of_call (compute_drift_error_per_frame FS 145) 95 = 255 :=
  of_decide_eq_true (by with_unfolding_all rfl)

/-- Inversion of a successful build: the components of the produced
`BarBuild` in terms of the inputs. -/
lemma generate_some_inv (sample_rate : ℕ) (tempo : ℤ) (B : ℕ) (hi lo : List ℚ) (b : BarBuild)
    (h : generate_bar_and_beat_array sample_rate tempo B hi lo = some b) :
    b.samples_per_beat = pyInt ((sample_rate * 60 : ℚ) / (tempo : ℚ)) ∧
    b.samples_per_bar = b.samples_per_beat * B ∧
    (hi.length : ℤ) ≤ b.samples_per_beat ∧
    b.bar_array = (hi ++ List.replicate (b.samples_per_beat.toNat - hi.length) 0)
        ++ (List.replicate (B - 1)
              (lo ++ List.replicate (b.samples_per_beat.toNat - hi.length) 0)).flatten ∧
    b.beat_array = (List.range (b.samples_per_beat.toNat * B)).map
        (fun i => 1 + i / b.samples_per_beat.toNat) := by
  rw [generate_bar_and_beat_array] at h
  by_cases hg : pyInt ((sample_rate * 60 : ℚ) / (tempo : ℚ)) < (hi.length : ℤ)
  · rw [if_pos hg] at h
    exact absurd h (by simp)
  · rw [if_neg hg] at h
    obtain rfl := Option.some.inj h
    exact ⟨rfl, rfl, le_of_not_lt hg, rfl, rfl⟩

/-- Length of the built bar array when both click sounds have the same
length and fit in a beat. -/
lemma bar_array_length_eq (spbN B : ℕ) (hi lo : List ℚ) (hB : 1 ≤ B)
    (hlen : lo.length = hi.length) (hle : hi.length ≤ spbN) :
    ((hi ++ List.replicate (spbN - hi.length) (0:ℚ))
      ++ (List.replicate (B - 1) (lo ++ List.replicate (spbN - hi.length) (0:ℚ))).flatten).length
      = B * spbN := by
  obtain ⟨c, rfl⟩ : ∃ c, B = c + 1 := ⟨B - 1, by omega⟩
  simp only [List.length_append, List.length_replicate, List.length_flatten,
    List.map_replicate, List.sum_replicate, smul_eq_mul, Nat.add_sub_cancel]
  rw [hlen]
  have h1 : hi.length + (spbN - hi.length) = spbN := by omega
  rw [h1]
  ring

/-- Label counts in the beat track: each label `k` with `1 ≤ k ≤ B` occurs
exactly `spb` times. -/
lemma beat_track_count (spb B k : ℕ) :
    ((List.range (spb * B)).map (fun i => 1 + i / spb)).count k
      = if 1 ≤ k ∧ k ≤ B then spb else 0 := by
  induction B with
  | zero =>
    simp only [Nat.mul_zero, List.range_zero, List.map_nil, List.count_nil]
    have hno : ¬ (1 ≤ k ∧ k ≤ 0) := by omega
    rw [if_neg hno]
  | succ c ih =>
    rcases Nat.eq_zero_or_pos spb with hs | hs
    · subst hs
      simp only [Nat.zero_mul, List.range_zero, List.map_nil, List.count_nil]
      split_ifs <;> rfl
    · rw [Nat.mul_succ, List.range_add, List.map_append, List.count_append, ih]
      have hmap : (List.map (fun x => spb * c + x) (List.range spb)).map
          (fun i => 1 + i / spb) = List.replicate spb (1 + c) := by
        rw [List.map_map]
        have hcg : ∀ x ∈ List.range spb,
            ((fun i => 1 + i / spb) ∘ (fun x => spb * c + x)) x = 1 + c := by
          intro x hx
          have hxlt : x < spb := List.mem_range.mp hx
          show 1 + (spb * c + x) / spb = 1 + c
          rw [Nat.add_comm (spb * c) x, Nat.add_mul_div_left x c hs,
            Nat.div_eq_of_lt hxlt, Nat.zero_add]
        rw [List.map_congr_left hcg, List.map_const', List.length_range]
      rw [hmap, List.count_replicate]
      simp only [beq_iff_eq]
      split_ifs <;> omega

/-- C5 counterexample: with click sounds of unequal length (`hi` of length
1, `lo` of length 2) at tempo 300, the built bar has 12803 samples, not
`beats_per_bar * samples_per_beat = 4 * 3200 = 12800`, and so it is longer
than the beat label track. -/
theorem bar_length_wrong_for_unequal_clicks :
    ((generate_bar_and_beat_array FS 300 BEATS_PER_BAR [(0:ℚ)] [(0:ℚ), 0]).map
        (fun b => b.bar_array.length)) = some 12803 ∧ (12803 : ℕ) ≠ 4 * 3200 := by
  refine ⟨?_, by norm_num⟩
  have hspb : pyInt ((FS * 60 : ℚ) / ((300:ℤ) : ℚ)) = 3200 :=
    of_decide_eq_true (by with_unfolding_all rfl)
  simp only [generate_bar_and_beat_array, BEATS_PER_BAR, hspb]
  norm_num [List.length_append, List.length_replicate, List.length_flatten,
    List.map_replicate, List.sum_replicate, List.length_cons, List.length_nil]
  rw [show ((3200 : ℤ).toNat) = 3200 from rfl]

/-- C5 amended: whenever the build succeeds and the two click sounds have
equal length, the bar array and the beat label track both have length
`beats_per_bar * floor(sample_rate * 60 / tempo)`, and each label `k` with
`1 ≤ k ≤ beats_per_bar` occurs exactly `floor(sample_rate * 60 / tempo)`
times in the beat label track. -/
theorem bar_and_beat_track_lengths (sample_rate : ℕ) (tempo : ℤ) (B : ℕ) (hi lo : List ℚ)
    (hB : 1 ≤ B) (hlen : lo.length = hi.length) (hT : 0 < tempo)
    (k : ℕ) (hk1 : 1 ≤ k) (hkB : k ≤ B) :
    ((generate_bar_and_beat_array sample_rate tempo B hi lo).map
        (fun b => b.bar_array.length)
      = (generate_bar_and_beat_array sample_rate tempo B hi lo).map
        (fun _ => B * (⌊(sample_rate * 60 : ℚ) / (tempo : ℚ)⌋).toNat)) ∧
    ((generate_bar_and_beat_array sample_rate tempo B hi lo).map
        (fun b => b.beat_array.length)
      = (generate_bar_and_beat_array sample_rate tempo B hi lo).map
        (fun _ => B * (⌊(sample_rate * 60 : ℚ) / (tempo : ℚ)⌋).toNat)) ∧
    ((generate_bar_and_beat_array sample_rate tempo B hi lo).map
        (fun b => b.beat_array.count k)
      = (generate_bar_and_beat_array sample_rate tempo B hi lo).map
        (fun _ => (⌊(sample_rate * 60 : ℚ) / (tempo : ℚ)⌋).toNat)) := by
  rcases hgen : generate_bar_and_beat_array sample_rate tempo B hi lo with _ | b
  · exact ⟨rfl, rfl, rfl⟩
  · obtain ⟨hspb, hbar', hle, hbar, hbeat⟩ := generate_some_inv _ _ _ _ _ _ hgen
    have harg : 0 ≤ (sample_rate * 60 : ℚ) / (tempo : ℚ) := by
      apply div_nonneg
      · positivity
      · exact_mod_cast le_of_lt hT
    have hfl : b.samples_per_beat = ⌊(sample_rate * 60 : ℚ) / (tempo : ℚ)⌋ := by
      rw [hspb, pyInt_eq_floor _ harg]
    have hleN : hi.length ≤ b.samples_per_beat.toNat := by omega
    simp only [Option.map_some', Option.some.injEq]
    refine ⟨?_, ?_, ?_⟩
    · rw [hbar, bar_array_length_eq _ _ _ _ hB hlen hleN, hfl]
    · rw [hbeat, List.length_map, List.length_range, hfl, Nat.mul_comm]
    · rw [hbeat, beat_track_count, if_pos ⟨hk1, hkB⟩, hfl]

/-- Witness for C5 (amended) at tempo 300, 4 beats per bar, equal-length
click sounds, label k = 1. -/
theorem bar_and_beat_track_lengths_witness :
    (1 ≤ BEATS_PER_BAR) ∧ ([(0:ℚ), 0].length = [(0:ℚ), 0].length) ∧ ((0:ℤ) < 300) ∧
    ((generate_bar_and_beat_array FS 300 BEATS_PER_BAR [(0:ℚ), 0] [(0:ℚ), 0]).map
        (fun b => b.bar_array.length)
      = (generate_bar_and_beat_array FS 300 BEATS_PER_BAR [(0:ℚ), 0] [(0:ℚ), 0]).map
        (fun _ => BEATS_PER_BAR * (⌊(FS * 60 : ℚ) / ((300:ℤ) : ℚ)⌋).toNat)) := by
  refine ⟨by norm_num [BEATS_PER_BAR], rfl, by norm_num, ?_⟩
  exact (bar_and_beat_track_lengths FS 300 BEATS_PER_BAR [(0:ℚ), 0] [(0:ℚ), 0]
    (by norm_num [BEATS_PER_BAR]) rfl (by norm_num) 1 le_rfl
    (by norm_num [BEATS_PER_BAR])).1

lemma pyMod1_pyMod1 (x : ℚ) : pyMod1 (pyMod1 x) = pyMod1 x := by
  simp only [pyMod1_eq_fract, Int.fract_fract]

/-- C4: on a tempo change while running, the code computes exactly
`new_start_index = floor(((f + ((elapsed / seconds_per_bar(old)) mod 1)) mod 1)
* samples_per_bar(new))`, rotates the newly built bar left by that index,
and stores the combined fraction as the new `tempo_start_bar_fraction` for
the next tempo change; `samples_per_bar(new)` is
`floor(fs * 60 / new_tempo) * beats_per_bar`. -/
theorem tempo_change_phase_mapping (hi lo : List ℚ) (s : MetState) (v : ℤ) (now : ℚ)
    (hrun : s.running = true) :
    ((set_tempo_M hi lo s v now).map (fun s1 => s1.bar_array)
      = (generate_bar_and_beat_array FS v BEATS_PER_BAR hi lo).map
          (fun b => b.bar_array.rotate
            (spec_new_start_index s.tempo_start_bar_fraction (now - s.tempo_start_time)
                s.seconds_per_bar b.samples_per_bar).toNat)) ∧
    ((set_tempo_M hi lo s v now).map (fun s1 => s1.tempo_start_bar_fraction)
      = (generate_bar_and_beat_array FS v BEATS_PER_BAR hi lo).map
          (fun _ => spec_combined_fraction s.tempo_start_bar_fraction
              (now - s.tempo_start_time) s.seconds_per_bar)) ∧
    (0 < v → ∀ b : BarBuild, generate_bar_and_beat_array FS v BEATS_PER_BAR hi lo = some b →
        b.samples_per_bar = ⌊(FS * 60 : ℚ) / (v : ℚ)⌋ * BEATS_PER_BAR) := by
  rcases hgen : generate_bar_and_beat_array FS v BEATS_PER_BAR hi lo with _ | b
  · refine ⟨?_, ?_, ?_⟩
    · simp [set_tempo_M, hgen]
    · simp [set_tempo_M, hgen]
    · intro _ b hb
      exact absurd hb (by simp)
  · obtain ⟨hspb, hbar', hle, _, _⟩ := generate_some_inv _ _ _ _ _ _ hgen
    have hsnn : (0:ℤ) ≤ b.samples_per_beat := le_trans (Int.ofNat_nonneg _) hle
    have hnn : (0:ℚ) ≤ (b.samples_per_bar : ℚ) := by
      have hz : (0:ℤ) ≤ b.samples_per_bar := by
        rw [hbar']
        exact mul_nonneg hsnn (Int.ofNat_nonneg _)
      exact_mod_cast hz
    have hkey : pyInt (pyMod1 (s.tempo_start_bar_fraction +
          pyMod1 ((now - s.tempo_start_time) / s.seconds_per_bar)) * (b.samples_per_bar : ℚ))
        = spec_new_start_index s.tempo_start_bar_fraction (now - s.tempo_start_time)
            s.seconds_per_bar b.samples_per_bar := by
      rw [spec_new_start_index, spec_combined_fraction, ← pyMod1_eq_fract, ← pyMod1_eq_fract]
      apply pyInt_eq_floor
      apply mul_nonneg _ hnn
      rw [pyMod1_eq_fract]
      exact Int.fract_nonneg _
    refine ⟨?_, ?_, ?_⟩
    · simp only [set_tempo_M, hgen, hrun, if_true, Option.map_some',
        map_current_position_to_new_tempo_index]
      rw [hkey]
    · simp only [set_tempo_M, hgen, hrun, if_true, Option.map_some',
        map_current_position_to_new_tempo_index, spec_combined_fraction]
      rw [pyMod1_eq_fract, pyMod1_eq_fract]
    · intro hv b2 hb2
      obtain rfl := Option.some.inj hb2
      rw [hbar', hspb, pyInt_eq_floor]
      apply div_nonneg
      · positivity
      · exact_mod_cast le_of_lt hv

/-- Witness for C4: the running sample state, tempo change to 140 at stream
time 1. -/
theorem tempo_change_phase_mapping_witness :
    (sample_state_running.running = true) ∧
    ((set_tempo_M [] [] sample_state_running 140 1).map (fun s1 => s1.tempo_start_bar_fraction)
      = (generate_bar_and_beat_array FS 140 BEATS_PER_BAR [] []).map
          (fun _ => spec_combined_fraction sample_state_running.tempo_start_bar_fraction
              (1 - sample_state_running.tempo_start_time)
              sample_state_running.seconds_per_bar)) :=
  ⟨rfl, (tempo_change_phase_mapping [] [] sample_state_running 140 1 rfl).2.1⟩

/-- C6: the waveform build fails (raises, modelled as `none`) exactly when
`int(fs * 60 / tempo)` is smaller than the length of the click sound, that
truncated value agrees with the floor for positive tempos, and such a tempo
never reaches a sequencer: `set_tempo` fails before creating a generator,
and so does `start` from the stopped state. -/
theorem invalid_tempo_never_reaches_sequencer (sample_rate : ℕ) (tempo : ℤ) (B : ℕ)
    (hi lo : List ℚ) (s : MetState) (now : ℚ) :
    (generate_bar_and_beat_array sample_rate tempo B hi lo = none
      ↔ pyInt ((sample_rate * 60 : ℚ) / (tempo : ℚ)) < (hi.length : ℤ)) ∧
    (0 < tempo → pyInt ((sample_rate * 60 : ℚ) / (tempo : ℚ))
      = ⌊(sample_rate * 60 : ℚ) / (tempo : ℚ)⌋) ∧
    (pyInt ((FS * 60 : ℚ) / (tempo : ℚ)) < (hi.length : ℤ) →
      set_tempo_M hi lo s tempo now = none) ∧
    (pyInt ((FS * 60 : ℚ) / (s.tempo : ℚ)) < (hi.length : ℤ) → s.running = false →
      start_M hi lo s now = none) := by
  have hiff : ∀ (sr : ℕ) (tp : ℤ), generate_bar_and_beat_array sr tp B hi lo = none
      ↔ pyInt ((sr * 60 : ℚ) / (tp : ℚ)) < (hi.length : ℤ) := by
    intro sr tp
    rw [generate_bar_and_beat_array]
    by_cases hg : pyInt ((sr * 60 : ℚ) / (tp : ℚ)) < (hi.length : ℤ)
    · rw [if_pos hg]
      simp [hg]
    · rw [if_neg hg]
      simp [hg]
  refine ⟨hiff sample_rate tempo, ?_, ?_, ?_⟩
  · intro hv
    apply pyInt_eq_floor
    apply div_nonneg
    · positivity
    · exact_mod_cast le_of_lt hv
  · intro h
    have hgen : generate_bar_and_beat_array FS tempo BEATS_PER_BAR hi lo = none := by
      rw [generate_bar_and_beat_array, if_pos h]
    simp [set_tempo_M, hgen]
  · intro h hrun
    have hgen : generate_bar_and_beat_array FS s.tempo BEATS_PER_BAR hi lo = none := by
      rw [generate_bar_and_beat_array, if_pos h]
    simp [start_M, hrun, hgen]

/-- Witness for C6: tempo 1000000 makes `samples_per_beat = 0`, smaller than
a 1-sample click, and `set_tempo` then fails with no sequencer created. -/
theorem invalid_tempo_never_reaches_sequencer_witness :
    (pyInt ((FS * 60 : ℚ) / ((1000000 : ℤ) : ℚ)) < (([(0:ℚ)]).length : ℤ)) ∧
    set_tempo_M [(0:ℚ)] [] sample_state 1000000 0 = none := by
  have h : pyInt ((FS * 60 : ℚ) / ((1000000 : ℤ) : ℚ)) < (([(0:ℚ)]).length : ℤ) :=
    of_decide_eq_true (by with_unfolding_all rfl)
  exact ⟨h, (invalid_tempo_never_reaches_sequencer FS 1000000 BEATS_PER_BAR
    [(0:ℚ)] [] sample_state 0).2.2.1 h⟩

/-- C9: `start()` while running and `stop()` while stopped are no-ops, and
repeating any inbound command identically (same argument, same stream time,
so the repeat sees zero elapsed time) leaves the state exactly as after the
first call. -/
theorem command_idempotence (hi lo : List ℚ) (s : MetState) (now now2 : ℚ) (v : ℤ) :
    (s.running = true → start_M hi lo s now = some s) ∧
    (s.running = false → stop_M s = s) ∧
    ((start_M hi lo s now).bind (fun s1 => start_M hi lo s1 now2)
        = start_M hi lo s now) ∧
    (stop_M (stop_M s) = stop_M s) ∧
    ((set_tempo_M hi lo s v now).bind (fun s1 => set_tempo_M hi lo s1 v s1.tempo_start_time)
        = set_tempo_M hi lo s v now) := by
  have hfract0 : pyMod1 (0 : ℚ) = 0 := by
    rw [pyMod1_eq_fract, Int.fract_zero]
  refine ⟨?_, ?_, ?_, ?_, ?_⟩
  · intro h
    rw [start_M, if_pos h]
  · intro h
    rw [stop_M, if_neg (by simp [h])]
  · by_cases hr : s.running
    · simp [start_M, hr]
    · rcases hgen : generate_bar_and_beat_array FS s.tempo BEATS_PER_BAR hi lo with _ | b
      · simp [start_M, hr, hgen]
      · simp [start_M, hr, hgen]
  · by_cases hr : s.running <;> simp [stop_M, hr]
  · rcases hgen : generate_bar_and_beat_array FS v BEATS_PER_BAR hi lo with _ | b
    · simp [set_tempo_M, hgen]
    · by_cases hr : s.running
      · simp only [set_tempo_M, hgen, hr, if_true, Option.some_bind,
          map_current_position_to_new_tempo_index, sub_self, zero_div, hfract0,
          add_zero, pyMod1_pyMod1]
      · simp only [set_tempo_M, hgen, hr, if_false, Option.some_bind, Bool.false_eq_true]

/-- Witness for C9: starting the already-running sample state and stopping
the stopped sample state are both no-ops. -/
theorem command_idempotence_witness :
    (sample_state_running.running = true) ∧
    start_M [] [] sample_state_running 0 = some sample_state_running ∧
    (sample_state.running = false) ∧
    stop_M sample_state = sample_state :=
  ⟨rfl, (command_idempotence [] [] sample_state_running 0 0 170).1 rfl,
   rfl, (command_idempotence [] [] sample_state 0 0 170).2.1 rfl⟩

set_option maxRecDepth 40000 in
/-- C8 counterexample: `set_tempo(1000)` takes effect without any clamping —
the tempo in force afterwards is 1000, outside the configured range
[40, 300]. -/
theorem set_tempo_does_not_clamp :
    ((set_tempo_M [] [] sample_state 1000 0).map (fun s1 => s1.tempo) = some 1000) ∧
    ¬ ((1000 : ℤ) ≤ 300) :=
  of_decide_eq_true (by with_unfolding_all rfl)

/-- C8 amended: `set_tempo` itself performs no clamping — whenever the
rebuild succeeds, the tempo in force is exactly the argument, even outside
[40, 300]; the clamping to the slider range [40, 300] is done by
`adjust_tempo`, so every tempo set through `adjust_tempo` lies in
[40, 300]. -/
theorem tempo_clamping_location (hi lo : List ℚ) (s : MetState) (v adj : ℤ) (now : ℚ) :
    ((set_tempo_M hi lo s v now).map (fun s1 => s1.tempo)
        = (generate_bar_and_beat_array FS v BEATS_PER_BAR hi lo).map (fun _ => v)) ∧
    (∀ t : ℤ, (adjust_tempo_M hi lo s adj now).map (fun s1 => s1.tempo) = some t →
        40 ≤ t ∧ t ≤ 300) := by
  have htempo : ∀ w : ℤ, (set_tempo_M hi lo s w now).map (fun s1 => s1.tempo)
      = (generate_bar_and_beat_array FS w BEATS_PER_BAR hi lo).map (fun _ => w) := by
    intro w
    rcases hgen : generate_bar_and_beat_array FS w BEATS_PER_BAR hi lo with _ | b
    · simp [set_tempo_M, hgen]
    · simp [set_tempo_M, hgen]
  have hval : ∀ (w t : ℤ),
      (generate_bar_and_beat_array FS w BEATS_PER_BAR hi lo).map (fun _ => w) = some t →
      t = w := by
    intro w t h
    rcases hg : generate_bar_and_beat_array FS w BEATS_PER_BAR hi lo with _ | b
    · rw [hg] at h
      exact absurd h (by simp)
    · rw [hg, Option.map_some'] at h
      exact (Option.some.inj h).symm
  refine ⟨htempo v, ?_⟩
  intro t ht
  rw [adjust_tempo_M] at ht
  split_ifs at ht with h1 h2
  · have hw := hval 40 t (by rw [← htempo 40]; exact ht)
    omega
  · have hw := hval 300 t (by rw [← htempo 300]; exact ht)
    omega
  · have hw := hval (s.tempo + adj) t (by rw [← htempo (s.tempo + adj)]; exact ht)
    omega

set_option maxRecDepth 40000 in
/-- Witness for C8 (amended): adjusting the sample state by +10 bpm lands on
tempo 180, inside [40, 300]. -/
theorem tempo_clamping_location_witness :
    ((adjust_tempo_M [] [] sample_state 10 0).map (fun s1 => s1.tempo) = some 180) ∧
    (40 ≤ (180:ℤ) ∧ (180:ℤ) ≤ 300) := by
  have h : (adjust_tempo_M [] [] sample_state 10 0).map (fun s1 => s1.tempo) = some 180 :=
    of_decide_eq_true (by with_unfolding_all rfl)
  exact ⟨h, (tempo_clamping_location [] [] sample_state 180 10 0).2 180 h⟩

set_option maxRecDepth 40000 in
/-- C7 counterexample: on a refill-push timeout the callback neither signals
an abort nor stops the stream epoch — the exception is caught and printed,
the callback returns normally, and the output-buffer write is skipped. -/
theorem overrun_continues_stream :
    ((callback 256 ⟨false, false, false, false, false⟩ true
        ⟨[(List.replicate 256 (0:ℚ), List.replicate 256 1)], ⟨[], [], 0, 0⟩⟩).signal
      = CbSignal.ok) ∧
    ((callback 256 ⟨false, false, false, false, false⟩ true
        ⟨[(List.replicate 256 (0:ℚ), List.replicate 256 1)], ⟨[], [], 0, 0⟩⟩).outdata
      = none) ∧
    CbSignal.ok ≠ CbSignal.callbackAbort :=
  of_decide_eq_true (by with_unfolding_all rfl)

set_option maxRecDepth 40000 in
/-- C7 amended: in the refill path the callback first calls `next()` and
pushes with a bounded wait of `TIMEOUT = BUFFERSIZE * BLOCKSIZE / fs`, and
only then writes the popped frame to the output buffer; if the push times
out, the `queue.Full` exception is caught and printed and the callback
continues the stream epoch — the output write is skipped for that
invocation and the freshly generated frame is dropped.  Without a timeout,
the popped frame is written and the `next()` result is appended. -/
theorem refill_timeout_behavior (f : (List ℚ) × (List ℕ))
    (rest : List ((List ℚ) × (List ℕ))) (gen : Sequencer) (status : SdStatus)
    (hst : status.any_flag = false) (hlen : BLOCKSIZE ≤ f.1.length) :
    (TIMEOUT = (BUFFERSIZE * BLOCKSIZE : ℚ) / FS) ∧
    (callback BLOCKSIZE status true ⟨f :: rest, gen⟩
        = ⟨.ok, ⟨rest, (seq_next gen).2⟩, none⟩) ∧
    (callback BLOCKSIZE status false ⟨f :: rest, gen⟩
        = ⟨.ok, ⟨rest ++ [(seq_next gen).1], (seq_next gen).2⟩, some f.1⟩) := by
  obtain ⟨iu, io, ou, oo, po⟩ := status
  simp only [SdStatus.any_flag, Bool.or_eq_false_iff] at hst
  obtain ⟨⟨⟨⟨h1, h2⟩, h3⟩, h4⟩, h5⟩ := hst
  subst h1 h2 h3 h4 h5
  have hnlt : ¬ f.1.length < BLOCKSIZE := not_lt.mpr hlen
  refine ⟨by rw [TIMEOUT]; ring, ?_, ?_⟩
  · have hred : callback BLOCKSIZE ⟨false, false, false, false, false⟩ true ⟨f :: rest, gen⟩
        = if f.1.length < BLOCKSIZE then
            ⟨.callbackStop, ⟨rest, gen⟩,
             some (f.1 ++ List.replicate (BLOCKSIZE - f.1.length) 0)⟩
          else ⟨.ok, ⟨rest, (seq_next gen).2⟩, none⟩ := rfl
    rw [hred, if_neg hnlt]
  · have hred : callback BLOCKSIZE ⟨false, false, false, false, false⟩ false ⟨f :: rest, gen⟩
        = if f.1.length < BLOCKSIZE then
            ⟨.callbackStop, ⟨rest, gen⟩,
             some (f.1 ++ List.replicate (BLOCKSIZE - f.1.length) 0)⟩
          else ⟨.ok, ⟨rest ++ [(seq_next gen).1], (seq_next gen).2⟩, some f.1⟩ := rfl
    rw [hred, if_neg hnlt]

/-- Witness for C7 (amended): a clean status and a full-length frame, with
the put timing out. -/
theorem refill_timeout_behavior_witness :
    ((⟨false, false, false, false, false⟩ : SdStatus).any_flag = false) ∧
    (BLOCKSIZE ≤ ((List.replicate 256 (0:ℚ), List.replicate 256 1).1).length) ∧
    (callback BLOCKSIZE ⟨false, false, false, false, false⟩ true
        ⟨[(List.replicate 256 (0:ℚ), List.replicate 256 1)], ⟨[], [], 0, 0⟩⟩
      = ⟨.ok, ⟨[], (seq_next ⟨[], [], 0, 0⟩).2⟩, none⟩) := by
  have h1 : (⟨false, false, false, false, false⟩ : SdStatus).any_flag = false := rfl
  have h2 : BLOCKSIZE ≤ ((List.replicate 256 (0:ℚ), List.replicate 256 1).1).length := by
    show BLOCKSIZE ≤ (List.replicate 256 (0:ℚ)).length
    rw [List.length_replicate]
    norm_num [BLOCKSIZE]
  exact ⟨h1, h2, (refill_timeout_behavior (List.replicate 256 (0:ℚ), List.replicate 256 1)
    [] ⟨[], [], 0, 0⟩ ⟨false, false, false, false, false⟩ h1 h2).2.1⟩

/-- C10: the callback asserts `frames == BLOCKSIZE` on every invocation
(a mismatch raises, aborting the stream), and any nonzero status flag
aborts the stream epoch — output underflow via `sd.CallbackAbort`, every
other flag via the failing `assert not status`. -/
theorem callback_asserts_frames_and_status (frames : ℕ) (status : SdStatus)
    (put_times_out : Bool) (s : CbState) :
    (frames ≠ BLOCKSIZE → (callback frames status put_times_out s).signal
        = CbSignal.assertFailed) ∧
    (status.any_flag = true →
        ((callback frames status put_times_out s).signal).aborts_epoch = true) := by
  constructor
  · intro h
    rw [callback, if_pos h]
  · intro h
    by_cases hf : frames ≠ BLOCKSIZE
    · rw [callback, if_pos hf]
      rfl
    · rw [callback, if_neg hf]
      by_cases hu : status.output_underflow = true
      · rw [if_pos hu]
        rfl
      · rw [if_neg hu, if_pos h]
        rfl

/-- Witness for C10: a wrong frame count fails the frame assertion, and an
output-underflow flag aborts the epoch. -/
theorem callback_asserts_frames_and_status_witness :
    ((1 : ℕ) ≠ BLOCKSIZE) ∧
    ((callback 1 ⟨true, false, false, false, false⟩ false ⟨[], ⟨[], [], 0, 0⟩⟩).signal
        = CbSignal.assertFailed) ∧
    ((⟨false, false, true, false, false⟩ : SdStatus).any_flag = true) ∧
    (((callback 256 ⟨false, false, true, false, false⟩ false
        ⟨[], ⟨[], [], 0, 0⟩⟩).signal).aborts_epoch = true) := by
  have h1 : (1 : ℕ) ≠ BLOCKSIZE := by norm_num [BLOCKSIZE]
  have h2 : (⟨false, false, true, false, false⟩ : SdStatus).any_flag = true := rfl
  exact ⟨h1, (callback_asserts_frames_and_status 1 ⟨true, false, false, false, false⟩
      false ⟨[], ⟨[], [], 0, 0⟩⟩).1 h1, h2,
    (callback_asserts_frames_and_status 256 ⟨false, false, true, false, false⟩
      false ⟨[], ⟨[], [], 0, 0⟩⟩).2 h2⟩
